import Mathlib

/-!
Verification of the deepinsight reassembly core: the text chunker
(`backend/utils/file_processor.py`, `chunk_text`), the entity registry, the
relationship resolver and the extraction processor
(`backend/utils/enhanced_extraction.py`).

Python strings are modelled as lists of Unicode code points (`PyStr`), so the
case-mapping arithmetic of `str.upper` / `str.title` is plain `Nat`
arithmetic.  Python dicts are modelled as insertion-ordered association lists
(`dictGet` / `dictInsert` mirror `d[k]` lookup and `d[k] = v` assignment).
`str(uuid.uuid4())` is modelled as a fresh-identifier counter: the only facts
the code relies on are freshness and stability of the generated ids.
Exceptions are modelled with `Except`.
-/

namespace DeepInsight

/-- Python strings as lists of Unicode code points. -/
abbrev PyStr := List Nat

/-- Embed a Lean string literal into the code-point model. -/
def pyStr (s : String) : PyStr := s.data.map Char.toNat

/-- Python `str.upper` on one code point (ASCII range, which covers every
string the analysed code paths build or compare). -/
def upperN (n : Nat) : Nat := if 97 ≤ n ∧ n ≤ 122 then n - 32 else n

/-- Python `str.lower` on one code point (ASCII range). -/
def lowerN (n : Nat) : Nat := if 65 ≤ n ∧ n ≤ 90 then n + 32 else n

/-- Python `str.isalpha` on one code point (ASCII range). -/
def isAlphaN (n : Nat) : Bool := decide ((65 ≤ n ∧ n ≤ 90) ∨ (97 ≤ n ∧ n ≤ 122))

/-- ASCII whitespace, the characters removed by Python `str.strip()`. -/
def isSpaceN (n : Nat) : Bool :=
  n == 32 || n == 9 || n == 10 || n == 13 || n == 11 || n == 12

/-- Python `str.strip()`. -/
def pyStrip (s : PyStr) : PyStr :=
  ((s.dropWhile isSpaceN).reverse.dropWhile isSpaceN).reverse

/-- Python `str.upper()`. -/
def pyUpper (s : PyStr) : PyStr := s.map upperN

/-- Python `str.title()`: the first letter of each maximal run of letters is
upper-cased and the remaining letters of the run are lower-cased; the Boolean
argument records whether the previous character was a letter. -/
def titleAux : Bool → PyStr → PyStr
  | _, [] => []
  | prevAlpha, n :: rest =>
      if isAlphaN n then
        (if prevAlpha then lowerN n else upperN n) :: titleAux true rest
      else
        n :: titleAux false rest

/-- Python `str.title()`. -/
def pyTitle (s : PyStr) : PyStr := titleAux false s

/-- Python `str.isalpha()`: non-empty and every character alphabetic. -/
def pyIsAlpha (s : PyStr) : Bool := !s.isEmpty && s.all isAlphaN

/-- `EntityRegistry._normalize_name` from `enhanced_extraction.py`
(lines 44-65): empty input is returned as is; otherwise the input is
stripped, title-cased, and upper-cased instead when the title-cased value has
length at most 4 and is purely alphabetic. -/
def normalizeName (name : PyStr) : PyStr :=
  if name = [] then name
  else
    let normalized := pyTitle (pyStrip name)
    if normalized.length ≤ 4 ∧ pyIsAlpha normalized then pyUpper normalized
    else normalized

/-- Modelled from the spec (section 4.2.1), for the refinement comparison of
C10: trim surrounding whitespace; if the trimmed value has length at most 4
and consists only of alphabetic characters, upper-case it, otherwise convert
it to title case. -/
def normalizeSpec (name : PyStr) : PyStr :=
  let t := pyStrip name
  if t.length ≤ 4 ∧ pyIsAlpha t then pyUpper t else pyTitle t

theorem length_titleAux (b : Bool) (s : PyStr) : (titleAux b s).length = s.length := by
  induction s generalizing b with
  | nil => rfl
  | cons n rest ih =>
      simp only [titleAux]
      split <;> simp [ih]

theorem isAlphaN_upperN (n : Nat) : isAlphaN (upperN n) = isAlphaN n := by
  unfold upperN isAlphaN
  by_cases h : 97 ≤ n ∧ n ≤ 122
  · rw [if_pos h, decide_eq_decide]
    omega
  · rw [if_neg h]

theorem isAlphaN_lowerN (n : Nat) : isAlphaN (lowerN n) = isAlphaN n := by
  unfold lowerN isAlphaN
  by_cases h : 65 ≤ n ∧ n ≤ 90
  · rw [if_pos h, decide_eq_decide]
    omega
  · rw [if_neg h]

theorem upperN_upperN (n : Nat) : upperN (upperN n) = upperN n := by
  unfold upperN
  by_cases h : 97 ≤ n ∧ n ≤ 122
  · simp only [if_pos h]
    rw [if_neg (by omega)]
  · simp only [if_neg h]

theorem upperN_lowerN (n : Nat) : upperN (lowerN n) = upperN n := by
  unfold upperN lowerN
  by_cases h : 65 ≤ n ∧ n ≤ 90
  · simp only [if_pos h]
    rw [if_pos (by omega), if_neg (by omega)]
    omega
  · simp only [if_neg h]

theorem all_isAlphaN_titleAux (b : Bool) (s : PyStr) :
    (titleAux b s).all isAlphaN = s.all isAlphaN := by
  induction s generalizing b with
  | nil => rfl
  | cons n rest ih =>
      simp only [titleAux]
      split <;> rename_i h
      · rcases b with _ | _ <;>
          simp [List.all_cons, ih, isAlphaN_upperN, isAlphaN_lowerN]
      · simp [List.all_cons, ih]

theorem isEmpty_titleAux (b : Bool) (s : PyStr) :
    (titleAux b s).isEmpty = s.isEmpty := by
  cases s with
  | nil => rfl
  | cons n rest =>
      simp only [titleAux]
      split <;> rfl

theorem pyIsAlpha_pyTitle (s : PyStr) : pyIsAlpha (pyTitle s) = pyIsAlpha s := by
  unfold pyIsAlpha pyTitle
  rw [all_isAlphaN_titleAux, isEmpty_titleAux]

theorem pyUpper_titleAux (b : Bool) (s : PyStr) :
    pyUpper (titleAux b s) = pyUpper s := by
  induction s generalizing b with
  | nil => rfl
  | cons n rest ih =>
      simp only [titleAux]
      split
      · cases b
        · simpa [pyUpper, upperN_upperN] using ih true
        · simpa [pyUpper, upperN_lowerN] using ih true
      · simpa [pyUpper] using ih false

theorem length_pyTitle (s : PyStr) : (pyTitle s).length = s.length :=
  length_titleAux false s

theorem pyUpper_pyTitle (s : PyStr) : pyUpper (pyTitle s) = pyUpper s :=
  pyUpper_titleAux false s

/-- C10: name normalization is a pure function of the input string that trims
surrounding whitespace, converts to title case by default, and upper-cases
instead when the trimmed value has length at most 4 and consists only of
alphabetic characters; in particular `normalize "TURKISH AIRLINES"` and
`normalize "turkish airlines"` both give `"Turkish Airlines"`,
`normalize "ceo" = "CEO"` and `normalize "xml" = "XML"`.  The first conjunct
is the refinement of the spec-worded algorithm by the source function. -/
theorem normalize_name_c10 :
    (∀ s : PyStr, normalizeName s = normalizeSpec s)
    ∧ normalizeName (pyStr "TURKISH AIRLINES") = pyStr "Turkish Airlines"
    ∧ normalizeName (pyStr "turkish airlines") = pyStr "Turkish Airlines"
    ∧ normalizeName (pyStr "ceo") = pyStr "CEO"
    ∧ normalizeName (pyStr "xml") = pyStr "XML" := by
  refine ⟨?_, by decide, by decide, by decide, by decide⟩
  intro s
  unfold normalizeName normalizeSpec
  by_cases hs : s = []
  · subst hs
    simp [pyStrip, pyTitle, titleAux, pyIsAlpha, pyUpper]
  · simp only [if_neg hs]
    rw [length_pyTitle, pyIsAlpha_pyTitle]
    split
    · rw [pyUpper_pyTitle]
    · rfl

/-- Python dict lookup `d.get(k)` on an insertion-ordered association list. -/
def dictGet {K V : Type} [DecidableEq K] (l : List (K × V)) (k : K) : Option V :=
  match l with
  | [] => none
  | (k2, v) :: rest => if k2 = k then some v else dictGet rest k

/-- Python dict assignment `d[k] = v`: replace the value in place when the key
is present, append otherwise. -/
def dictInsert {K V : Type} [DecidableEq K] (l : List (K × V)) (k : K) (v : V) :
    List (K × V) :=
  match l with
  | [] => [(k, v)]
  | (k2, v2) :: rest =>
      if k2 = k then (k, v) :: rest else (k2, v2) :: dictInsert rest k v

/-- Property dicts.  The analysed code paths only read and write string
values (the `name` property), so values are modelled as strings. -/
abbrev PyDict := List (PyStr × PyStr)

/-- `ExtractedEntity` from `enhanced_extraction.py` (lines 12-20). -/
structure ExtractedEntity where
  temp_id : PyStr
  entity_type : PyStr
  name : PyStr
  properties : PyDict
  source_location : Option PyStr
  chunk_id : Option Nat
deriving DecidableEq

/-- `ExtractedRelationship` from `enhanced_extraction.py` (lines 22-31). -/
structure ExtractedRelationship where
  temp_id : PyStr
  relationship_type : PyStr
  source_temp_id : PyStr
  target_temp_id : PyStr
  properties : PyDict
  source_location : Option PyStr
  chunk_id : Option Nat
deriving DecidableEq

/-- Python exceptions raised by the analysed code: the `ValueError` raised by
`register_entity` for an entity without a name (carrying the temp id that the
message interpolates), and the `KeyError` a dict raises on a missing key. -/
inductive PyErr where
  | valueError (temp_id : PyStr)
  | keyError
deriving DecidableEq

/-- Stable ids.  `str(uuid.uuid4())` is modelled as a fresh-identifier
counter; the code relies only on the freshness of the generated ids. -/
def guidStr (n : Nat) : PyStr := pyStr "guid-" ++ pyStr (toString n)

/-- The f-string `f"chunk_{chunk_id}_{temp_id}"`; a `chunk_id` of `None`
renders as `"None"`, as in Python. -/
def tempKey (chunk_id : Option Nat) (temp_id : PyStr) : PyStr :=
  pyStr "chunk_" ++
    (match chunk_id with
     | some n => pyStr (toString n)
     | none => pyStr "None") ++ pyStr "_" ++ temp_id

/-- `EntityRegistry` state from `enhanced_extraction.py` (lines 39-42):
`entities` maps `(type, normalized_name)` keys to stable ids, `ai_id_mapping`
maps `chunk_{i}_{temp_id}` keys to stable ids, `entity_details` maps stable
ids to the stored canonical entity.  `next_guid` models the uuid4 stream. -/
structure EntityRegistry where
  entities : List ((PyStr × PyStr) × Nat)
  ai_id_mapping : List (PyStr × Nat)
  entity_details : List (Nat × ExtractedEntity)
  next_guid : Nat
deriving DecidableEq

/-- `EntityRegistry.__init__`. -/
def EntityRegistry.init : EntityRegistry := ⟨[], [], [], 0⟩

/-- `EntityRegistry.register_entity` (lines 67-115).  Raises `ValueError`
when the name is empty; otherwise looks up `(type, normalize(name))`: for an
existing key it records the temp-id mapping, replaces the stored entity when
the new observation has strictly more property keys (with `name` rewritten to
the normalized name and the stored temp id set to the stable id), and returns
the existing id; for a new key it allocates a fresh id and stores the entity
with normalized name.  The dict access `entity_details[existing_guid]` raises
`KeyError` when the id is absent, as in Python. -/
def EntityRegistry.register_entity (reg : EntityRegistry)
    (entity : ExtractedEntity) : Except PyErr (Nat × EntityRegistry) :=
  if entity.name = [] then
    .error (.valueError entity.temp_id)
  else
    let normalized_name := normalizeName entity.name
    let entity_key := (entity.entity_type, normalized_name)
    match dictGet reg.entities entity_key with
    | some existing_guid =>
        let temp_key := tempKey entity.chunk_id entity.temp_id
        let mapping := dictInsert reg.ai_id_mapping temp_key existing_guid
        match dictGet reg.entity_details existing_guid with
        | none => .error .keyError
        | some existing_entity =>
            if entity.properties.length > existing_entity.properties.length then
              let updated : ExtractedEntity :=
                { temp_id := guidStr existing_guid
                  entity_type := entity.entity_type
                  name := normalized_name
                  properties := dictInsert entity.properties (pyStr "name") normalized_name
                  source_location := entity.source_location
                  chunk_id := entity.chunk_id }
              .ok (existing_guid,
                { reg with
                    ai_id_mapping := mapping
                    entity_details := dictInsert reg.entity_details existing_guid updated })
            else
              .ok (existing_guid, { reg with ai_id_mapping := mapping })
    | none =>
        let new_guid := reg.next_guid
        let temp_key := tempKey entity.chunk_id entity.temp_id
        let updated : ExtractedEntity :=
          { temp_id := guidStr new_guid
            entity_type := entity.entity_type
            name := normalized_name
            properties := dictInsert entity.properties (pyStr "name") normalized_name
            source_location := entity.source_location
            chunk_id := entity.chunk_id }
        .ok (new_guid,
          { entities := dictInsert reg.entities entity_key new_guid
            ai_id_mapping := dictInsert reg.ai_id_mapping temp_key new_guid
            entity_details := dictInsert reg.entity_details new_guid updated
            next_guid := reg.next_guid + 1 })

/-- `EntityRegistry.resolve_temp_id` (lines 117-120): exact lookup. -/
def EntityRegistry.resolve_temp_id (reg : EntityRegistry) (chunk_id : Nat)
    (temp_id : PyStr) : Option Nat :=
  dictGet reg.ai_id_mapping (tempKey (some chunk_id) temp_id)

/-- The JSON-shaped entity emitted by `get_all_entities` (lines 122-132). -/
structure EntityOut where
  id : Nat
  type : PyStr
  properties : PyDict
  source_location : Option PyStr
deriving DecidableEq

/-- `EntityRegistry.get_all_entities` (lines 122-132). -/
def EntityRegistry.get_all_entities (reg : EntityRegistry) : List EntityOut :=
  reg.entity_details.map fun p =>
    { id := p.1
      type := p.2.entity_type
      properties := p.2.properties
      source_location := p.2.source_location }

/-- `EntityRegistry.get_entity_count` (lines 134-136). -/
def EntityRegistry.get_entity_count (reg : EntityRegistry) : Nat :=
  reg.entity_details.length

/-- The statistics dict of `get_deduplication_stats` (lines 138-149).
`duplicates_removed` is an integer (Python subtraction may go negative) and
`deduplication_rate` a rational (Python float division is exact on the small
counts involved). -/
structure DedupStats where
  total_extracted : Nat
  unique_entities : Nat
  duplicates_removed : Int
  deduplication_rate : Rat
deriving DecidableEq

/-- `EntityRegistry.get_deduplication_stats` (lines 138-149). -/
def EntityRegistry.get_deduplication_stats (reg : EntityRegistry) : DedupStats :=
  let total_temp_ids := reg.ai_id_mapping.length
  let unique_entities := reg.entity_details.length
  let duplicates_removed : Int := (total_temp_ids : Int) - (unique_entities : Int)
  { total_extracted := total_temp_ids
    unique_entities := unique_entities
    duplicates_removed := duplicates_removed
    deduplication_rate :=
      if total_temp_ids > 0 then (duplicates_removed : Rat) / (total_temp_ids : Rat)
      else 0 }

/-- A sequence of `register_entity` calls threading the registry state;
an exception aborts the sequence. -/
def registerAll (reg : EntityRegistry) :
    List ExtractedEntity → Except PyErr EntityRegistry
  | [] => .ok reg
  | e :: rest =>
      match reg.register_entity e with
      | .error err => .error err
      | .ok (_, reg2) => registerAll reg2 rest

theorem dictGet_dictInsert_self {K V : Type} [DecidableEq K]
    (l : List (K × V)) (k : K) (v : V) :
    dictGet (dictInsert l k v) k = some v := by
  induction l with
  | nil => simp [dictInsert, dictGet]
  | cons p rest ih =>
      obtain ⟨k2, v2⟩ := p
      by_cases h : k2 = k
      · subst h
        simp [dictInsert, dictGet]
      · simp [dictInsert, dictGet, h, ih]

theorem dictGet_dictInsert_ne {K V : Type} [DecidableEq K]
    (l : List (K × V)) (k k2 : K) (v : V) (h : k2 ≠ k) :
    dictGet (dictInsert l k v) k2 = dictGet l k2 := by
  induction l with
  | nil =>
      simp only [dictInsert, dictGet]
      rw [if_neg (Ne.symm h)]
  | cons p rest ih =>
      obtain ⟨k3, v3⟩ := p
      by_cases h3 : k3 = k
      · simp only [dictInsert, if_pos h3, dictGet]
        rw [if_neg (Ne.symm h), if_neg (fun hh : k3 = k2 => (Ne.symm h) (h3.symm.trans hh))]
      · simp only [dictInsert, if_neg h3, dictGet]
        split
        · rfl
        · exact ih

theorem isSome_dictGet_dictInsert {K V : Type} [DecidableEq K]
    (l : List (K × V)) (k k2 : K) (v : V)
    (h : (dictGet l k2).isSome = true) :
    (dictGet (dictInsert l k v) k2).isSome = true := by
  by_cases hk : k2 = k
  · subst hk
    rw [dictGet_dictInsert_self]
    rfl
  · rw [dictGet_dictInsert_ne l k k2 v hk]
    exact h

theorem mem_dictInsert {K V : Type} [DecidableEq K]
    {l : List (K × V)} {k : K} {v : V} {p : K × V}
    (h : p ∈ dictInsert l k v) : p = (k, v) ∨ p ∈ l := by
  induction l with
  | nil => simpa [dictInsert] using h
  | cons q rest ih =>
      obtain ⟨k2, v2⟩ := q
      by_cases h2 : k2 = k
      · subst h2
        simp only [dictInsert, if_pos rfl] at h
        rcases List.mem_cons.mp h with h | h
        · exact Or.inl h
        · exact Or.inr (List.mem_cons_of_mem _ h)
      · simp only [dictInsert, if_neg h2] at h
        rcases List.mem_cons.mp h with h | h
        · exact Or.inr (h ▸ List.mem_cons_self _ _)
        · rcases ih h with h | h
          · exact Or.inl h
          · exact Or.inr (List.mem_cons_of_mem _ h)

theorem mem_of_dictGet {K V : Type} [DecidableEq K]
    {l : List (K × V)} {k : K} {v : V}
    (h : dictGet l k = some v) : (k, v) ∈ l := by
  induction l with
  | nil => simp [dictGet] at h
  | cons p rest ih =>
      obtain ⟨k2, v2⟩ := p
      simp only [dictGet] at h
      split at h
      · rename_i heq
        injection h with h2
        subst h2
        subst heq
        exact List.mem_cons_self _ _
      · exact List.mem_cons_of_mem _ (ih h)

/-- First entity of the C7 scenario: Airport "ist". -/
def istA : ExtractedEntity :=
  ⟨pyStr "e1", pyStr "Airport", pyStr "ist", [(pyStr "name", pyStr "ist")], none, some 0⟩

/-- Second entity of the C7 scenario: Airport "IST". -/
def istB : ExtractedEntity :=
  ⟨pyStr "e2", pyStr "Airport", pyStr "IST", [(pyStr "name", pyStr "IST")], none, some 0⟩

/-- Third entity of the C7 scenario: Airport "Ist". -/
def istC : ExtractedEntity :=
  ⟨pyStr "e3", pyStr "Airport", pyStr "Ist", [(pyStr "name", pyStr "Ist")], none, some 0⟩

/-- The registry state after registering the three Airport entities. -/
def c7Reg : EntityRegistry :=
  match registerAll EntityRegistry.init [istA, istB, istC] with
  | .ok r => r
  | .error _ => EntityRegistry.init

/-- C7: registering three Airport candidates with display names "ist", "IST"
and "Ist" (distinct local ids) yields exactly one canonical entity whose name
property is "IST"; the statistics report total_extracted = 3,
unique_entities = 1, duplicates_removed = 2 and deduplication_rate = 2/3.
The last two conjuncts check the stats relations of the claim on every
registry: duplicates_removed = total_extracted - unique_entities and
deduplication_rate = duplicates_removed / total_extracted (0 when
total_extracted = 0). -/
theorem dedup_ist_c7 :
    registerAll EntityRegistry.init [istA, istB, istC] = .ok c7Reg
    ∧ c7Reg.get_all_entities.length = 1
    ∧ (c7Reg.get_all_entities.map fun e => dictGet e.properties (pyStr "name"))
        = [some (pyStr "IST")]
    ∧ c7Reg.get_deduplication_stats
        = { total_extracted := 3, unique_entities := 1, duplicates_removed := 2,
            deduplication_rate := 2 / 3 }
    ∧ (∀ r : EntityRegistry,
        (r.get_deduplication_stats).duplicates_removed
          = ((r.get_deduplication_stats).total_extracted : Int)
              - ((r.get_deduplication_stats).unique_entities : Int))
    ∧ (∀ r : EntityRegistry,
        (r.get_deduplication_stats).deduplication_rate
          = if 0 < (r.get_deduplication_stats).total_extracted then
              ((r.get_deduplication_stats).duplicates_removed : Rat)
                / ((r.get_deduplication_stats).total_extracted : Rat)
            else 0) := by
  refine ⟨rfl, rfl, rfl, by rfl, fun r => rfl, fun r => rfl⟩

/-- The canonical entity stored by `register_entity`: the input with the
name normalized (also inside `properties`) and the temp id replaced by the
stable id. -/
def storedEntity (entity : ExtractedEntity) (g : Nat) : ExtractedEntity :=
  { temp_id := guidStr g
    entity_type := entity.entity_type
    name := normalizeName entity.name
    properties := dictInsert entity.properties (pyStr "name") (normalizeName entity.name)
    source_location := entity.source_location
    chunk_id := entity.chunk_id }

theorem register_entity_new (reg : EntityRegistry) (entity : ExtractedEntity)
    (hn : ¬ entity.name = [])
    (hk : dictGet reg.entities (entity.entity_type, normalizeName entity.name) = none) :
    reg.register_entity entity = .ok (reg.next_guid,
      { entities := dictInsert reg.entities
          (entity.entity_type, normalizeName entity.name) reg.next_guid
        ai_id_mapping := dictInsert reg.ai_id_mapping
          (tempKey entity.chunk_id entity.temp_id) reg.next_guid
        entity_details := dictInsert reg.entity_details reg.next_guid
          (storedEntity entity reg.next_guid)
        next_guid := reg.next_guid + 1 }) := by
  unfold EntityRegistry.register_entity
  rw [if_neg hn]
  simp only [hk, storedEntity]

theorem register_entity_dup_keep (reg : EntityRegistry) (entity : ExtractedEntity)
    (g : Nat) (ex : ExtractedEntity)
    (hn : ¬ entity.name = [])
    (hk : dictGet reg.entities (entity.entity_type, normalizeName entity.name) = some g)
    (hd : dictGet reg.entity_details g = some ex)
    (hlen : ¬ entity.properties.length > ex.properties.length) :
    reg.register_entity entity = .ok (g,
      { reg with ai_id_mapping := dictInsert reg.ai_id_mapping (tempKey entity.chunk_id entity.temp_id) g }) := by
  unfold EntityRegistry.register_entity
  rw [if_neg hn]
  simp only [hk, hd, if_neg hlen]

theorem register_entity_dup_replace (reg : EntityRegistry) (entity : ExtractedEntity)
    (g : Nat) (ex : ExtractedEntity)
    (hn : ¬ entity.name = [])
    (hk : dictGet reg.entities (entity.entity_type, normalizeName entity.name) = some g)
    (hd : dictGet reg.entity_details g = some ex)
    (hlen : entity.properties.length > ex.properties.length) :
    reg.register_entity entity = .ok (g,
      { reg with
          ai_id_mapping := dictInsert reg.ai_id_mapping
            (tempKey entity.chunk_id entity.temp_id) g
          entity_details := dictInsert reg.entity_details g (storedEntity entity g) }) := by
  unfold EntityRegistry.register_entity
  rw [if_neg hn]
  simp only [hk, hd, if_pos hlen, storedEntity]

/-- Registry well-formedness: every stable id recorded in `entities` has an
entry in `entity_details`, and every stored canonical entity is indexed in
`entities` under its own `(type, name)` key with its own stable id. -/
def EntityRegistry.WF (reg : EntityRegistry) : Prop :=
  (∀ p ∈ reg.entities, (dictGet reg.entity_details p.2).isSome = true)
  ∧ (∀ p ∈ reg.entity_details,
      dictGet reg.entities (p.2.entity_type, p.2.name) = some p.1)

theorem init_WF : EntityRegistry.init.WF :=
  ⟨fun p hp => absurd hp (List.not_mem_nil p),
   fun p hp => absurd hp (List.not_mem_nil p)⟩

theorem register_entity_WF {reg : EntityRegistry} {entity : ExtractedEntity}
    {g : Nat} {reg2 : EntityRegistry}
    (hwf : reg.WF) (h : reg.register_entity entity = .ok (g, reg2)) : reg2.WF := by
  by_cases hn : entity.name = []
  · unfold EntityRegistry.register_entity at h
    rw [if_pos hn] at h
    cases h
  rcases hk : dictGet reg.entities (entity.entity_type, normalizeName entity.name)
    with _ | g0
  · rw [register_entity_new reg entity hn hk] at h
    injection h with h2
    injection h2 with hg hr
    subst hg
    subst hr
    constructor
    · intro p hp
      rcases mem_dictInsert hp with rfl | hp2
      · rw [dictGet_dictInsert_self]
        rfl
      · exact isSome_dictGet_dictInsert _ _ _ _ (hwf.1 p hp2)
    · intro p hp
      rcases mem_dictInsert hp with rfl | hp2
      · exact dictGet_dictInsert_self _ _ _
      · have h0 := hwf.2 p hp2
        have hne : (p.2.entity_type, p.2.name)
            ≠ (entity.entity_type, normalizeName entity.name) := by
          intro hh
          rw [hh, hk] at h0
          cases h0
        rw [dictGet_dictInsert_ne _ _ _ _ hne]
        exact h0
  · rcases hd : dictGet reg.entity_details g0 with _ | ex
    · unfold EntityRegistry.register_entity at h
      rw [if_neg hn] at h
      simp only [hk, hd] at h
      exact Except.noConfusion h
    by_cases hlen : entity.properties.length > ex.properties.length
    · rw [register_entity_dup_replace reg entity g0 ex hn hk hd hlen] at h
      injection h with h2
      injection h2 with hg hr
      subst hg
      subst hr
      constructor
      · intro p hp
        exact isSome_dictGet_dictInsert _ _ _ _ (hwf.1 p hp)
      · intro p hp
        rcases mem_dictInsert hp with rfl | hp2
        · exact hk
        · exact hwf.2 p hp2
    · rw [register_entity_dup_keep reg entity g0 ex hn hk hd hlen] at h
      injection h with h2
      injection h2 with hg hr
      subst hg
      subst hr
      exact ⟨fun p hp => hwf.1 p hp, fun p hp => hwf.2 p hp⟩

theorem register_entity_lookup_mono {reg : EntityRegistry} {entity : ExtractedEntity}
    {g : Nat} {reg2 : EntityRegistry}
    (h : reg.register_entity entity = .ok (g, reg2))
    (k0 : PyStr × PyStr) (v : Nat)
    (hv : dictGet reg.entities k0 = some v) : dictGet reg2.entities k0 = some v := by
  by_cases hn : entity.name = []
  · unfold EntityRegistry.register_entity at h
    rw [if_pos hn] at h
    cases h
  rcases hk : dictGet reg.entities (entity.entity_type, normalizeName entity.name)
    with _ | g0
  · rw [register_entity_new reg entity hn hk] at h
    injection h with h2
    injection h2 with hg hr
    subst hg
    subst hr
    have hne : k0 ≠ (entity.entity_type, normalizeName entity.name) := by
      intro hh
      rw [hh, hk] at hv
      cases hv
    rw [dictGet_dictInsert_ne _ _ _ _ hne]
    exact hv
  · rcases hd : dictGet reg.entity_details g0 with _ | ex
    · unfold EntityRegistry.register_entity at h
      rw [if_neg hn] at h
      simp only [hk, hd] at h
      exact Except.noConfusion h
    by_cases hlen : entity.properties.length > ex.properties.length
    · rw [register_entity_dup_replace reg entity g0 ex hn hk hd hlen] at h
      injection h with h2
      injection h2 with hg hr
      subst hg
      subst hr
      exact hv
    · rw [register_entity_dup_keep reg entity g0 ex hn hk hd hlen] at h
      injection h with h2
      injection h2 with hg hr
      subst hg
      subst hr
      exact hv

theorem register_entity_existing {reg : EntityRegistry} {entity : ExtractedEntity}
    {g : Nat} (hwf : reg.WF) (hn : ¬ entity.name = [])
    (hk : dictGet reg.entities (entity.entity_type, normalizeName entity.name) = some g) :
    ∃ reg2, reg.register_entity entity = .ok (g, reg2) := by
  have hsome := hwf.1 _ (mem_of_dictGet hk)
  rcases hd : dictGet reg.entity_details g with _ | ex
  · rw [hd] at hsome
    cases hsome
  by_cases hlen : entity.properties.length > ex.properties.length
  · exact ⟨_, register_entity_dup_replace reg entity g ex hn hk hd hlen⟩
  · exact ⟨_, register_entity_dup_keep reg entity g ex hn hk hd hlen⟩

theorem registerAll_append (l1 : List ExtractedEntity) :
    ∀ (reg mid : EntityRegistry) (l2 : List ExtractedEntity),
      registerAll reg l1 = .ok mid →
      registerAll reg (l1 ++ l2) = registerAll mid l2 := by
  induction l1 with
  | nil =>
      intro reg mid l2 h
      injection h with h
      subst h
      rfl
  | cons e rest ih =>
      intro reg mid l2 h
      simp only [registerAll, List.cons_append] at h ⊢
      cases he : reg.register_entity e with
      | error err =>
          rw [he] at h
          exact Except.noConfusion h
      | ok pr =>
          obtain ⟨g, reg2⟩ := pr
          rw [he] at h
          exact ih reg2 mid l2 h

theorem registerAll_WF (es : List ExtractedEntity) :
    ∀ {reg reg2 : EntityRegistry}, reg.WF → registerAll reg es = .ok reg2 → reg2.WF := by
  induction es with
  | nil =>
      intro reg reg2 hwf h
      injection h with h
      subst h
      exact hwf
  | cons e rest ih =>
      intro reg reg2 hwf h
      simp only [registerAll] at h
      cases he : reg.register_entity e with
      | error err =>
          rw [he] at h
          exact Except.noConfusion h
      | ok pr =>
          obtain ⟨g, regm⟩ := pr
          rw [he] at h
          exact ih (register_entity_WF hwf he) h

theorem registerAll_lookup_mono (es : List ExtractedEntity) :
    ∀ {reg reg2 : EntityRegistry} (k : PyStr × PyStr) (v : Nat),
      registerAll reg es = .ok reg2 →
      dictGet reg.entities k = some v → dictGet reg2.entities k = some v := by
  induction es with
  | nil =>
      intro reg reg2 k v h hv
      injection h with h
      subst h
      exact hv
  | cons e rest ih =>
      intro reg reg2 k v h hv
      simp only [registerAll] at h
      cases he : reg.register_entity e with
      | error err =>
          rw [he] at h
          exact Except.noConfusion h
      | ok pr =>
          obtain ⟨g, regm⟩ := pr
          rw [he] at h
          exact ih k v h (register_entity_lookup_mono he k v hv)

/-- Python `str.endswith`: the last `len(suffix)` characters equal the
suffix. -/
def pyEndswith (s suffix : PyStr) : Bool :=
  decide (suffix.length ≤ s.length ∧ s.drop (s.length - suffix.length) = suffix)

/-- `RelationshipResolver._resolve_temp_id_any_chunk` (lines 196-204): scan
`ai_id_mapping` in insertion order and return the stable id of the first
entry whose key ends with an underscore followed by `temp_id`. -/
def resolveTempIdAnyChunkAux (mapping : List (PyStr × Nat)) (temp_id : PyStr) :
    Option Nat :=
  match mapping with
  | [] => none
  | (temp_key, guid) :: rest =>
      if pyEndswith temp_key (pyStr "_" ++ temp_id) then some guid
      else resolveTempIdAnyChunkAux rest temp_id

/-- `_resolve_temp_id_any_chunk` applied to a registry. -/
def resolveTempIdAnyChunk (reg : EntityRegistry) (temp_id : PyStr) : Option Nat :=
  resolveTempIdAnyChunkAux reg.ai_id_mapping temp_id

/-- A resolved relationship as emitted by `resolve_relationships`
(lines 173-182); its `id` comes from the uuid4 stream. -/
structure ResolvedRelationship where
  id : Nat
  type : PyStr
  source_id : Nat
  target_id : Nat
  properties : PyDict
  source_location : Option PyStr
deriving DecidableEq

/-- `RelationshipResolver` state (lines 156-159); `uuid_counter` models the
uuid4 stream used for resolved-relationship ids. -/
structure RelationshipResolver where
  resolved_relationships : List ResolvedRelationship
  orphaned_relationships : List ExtractedRelationship
  uuid_counter : Nat
deriving DecidableEq

/-- `RelationshipResolver.__init__` (with the uuid stream starting at 0). -/
def RelationshipResolver.init : RelationshipResolver := ⟨[], [], 0⟩

/-- The loop body of `resolve_relationships` (lines 168-188): each
relationship whose two endpoints resolve becomes a resolved relationship with
a fresh id; the others are collected as orphaned.  Returns the resolved list,
the orphaned list and the advanced uuid counter. -/
def resolveLoop (reg : EntityRegistry) (ctr : Nat) :
    List ExtractedRelationship →
      List ResolvedRelationship × List ExtractedRelationship × Nat
  | [] => ([], [], ctr)
  | rel :: rest =>
      match resolveTempIdAnyChunk reg rel.source_temp_id,
            resolveTempIdAnyChunk reg rel.target_temp_id with
      | some source_guid, some target_guid =>
          let resolved_rel : ResolvedRelationship :=
            { id := ctr
              type := rel.relationship_type
              source_id := source_guid
              target_id := target_guid
              properties := rel.properties
              source_location := rel.source_location }
          let r := resolveLoop reg (ctr + 1) rest
          (resolved_rel :: r.1, r.2.1, r.2.2)
      | _, _ =>
          let r := resolveLoop reg ctr rest
          (r.1, rel :: r.2.1, r.2.2)

/-- `RelationshipResolver.resolve_relationships` (lines 161-194): resolves
every relationship, stores the resolved and orphaned lists on the resolver,
and returns the resolved list. -/
def RelationshipResolver.resolve_relationships (rr : RelationshipResolver)
    (reg : EntityRegistry) (all_relationships : List ExtractedRelationship) :
    RelationshipResolver × List ResolvedRelationship :=
  let r := resolveLoop reg rr.uuid_counter all_relationships
  ({ resolved_relationships := r.1
     orphaned_relationships := r.2.1
     uuid_counter := r.2.2 }, r.1)

/-- The statistics dict of `get_relationship_stats` (lines 206-215). -/
structure RelStats where
  total_relationships : Nat
  resolved_relationships : Nat
  orphaned_relationships : Nat
  resolution_rate : Rat
deriving DecidableEq

/-- `RelationshipResolver.get_relationship_stats` (lines 206-215). -/
def RelationshipResolver.get_relationship_stats (rr : RelationshipResolver) :
    RelStats :=
  let total := rr.resolved_relationships.length + rr.orphaned_relationships.length
  { total_relationships := total
    resolved_relationships := rr.resolved_relationships.length
    orphaned_relationships := rr.orphaned_relationships.length
    resolution_rate :=
      if total > 0 then (rr.resolved_relationships.length : Rat) / (total : Rat)
      else 0 }

theorem resolveTempIdAnyChunkAux_find (mapping : List (PyStr × Nat)) (temp_id : PyStr) :
    resolveTempIdAnyChunkAux mapping temp_id
      = (mapping.find? fun p => pyEndswith p.1 (pyStr "_" ++ temp_id)).map Prod.snd := by
  induction mapping with
  | nil => rfl
  | cons p rest ih =>
      obtain ⟨k, g⟩ := p
      by_cases h : pyEndswith k (pyStr "_" ++ temp_id) = true
      · simp [resolveTempIdAnyChunkAux, h, List.find?]
      · simp [resolveTempIdAnyChunkAux, h, List.find?, ih]

/-- The entity of window 0 in the resolution scenarios: Person "John Smith",
local id `person_1`. -/
def personEnt : ExtractedEntity :=
  ⟨pyStr "person_1", pyStr "Person", pyStr "John Smith",
    [(pyStr "name", pyStr "John Smith")], none, some 0⟩

/-- The entity of window 1 in the resolution scenarios: Airport "IST",
local id `airport_1`. -/
def airportEnt : ExtractedEntity :=
  ⟨pyStr "airport_1", pyStr "Airport", pyStr "IST",
    [(pyStr "name", pyStr "IST")], none, some 1⟩

/-- Registry with only `person_1` registered (window 0). -/
def personReg : EntityRegistry :=
  match registerAll EntityRegistry.init [personEnt] with
  | .ok r => r
  | .error _ => EntityRegistry.init

/-- C5: endpoint resolution matches by string suffix, not by exact local id:
`_resolve_temp_id_any_chunk` returns the stable id of the first mapping entry
whose key `chunk_i_local` ends with an underscore followed by the queried
temp id (first conjunct, the general characterisation via `find?`).
Consequently, after registering only `person_1` in window 0, the local id "1"
— which was never registered (its exact mapping key is absent; the mapping
holds exactly the `person_1` entry) — resolves to the stable id 0 of
`person_1` instead of failing. -/
theorem suffix_resolution_c5 :
    (∀ (mapping : List (PyStr × Nat)) (temp_id : PyStr),
        resolveTempIdAnyChunkAux mapping temp_id
          = (mapping.find? fun p => pyEndswith p.1 (pyStr "_" ++ temp_id)).map Prod.snd)
    ∧ registerAll EntityRegistry.init [personEnt] = .ok personReg
    ∧ personReg.ai_id_mapping = [(tempKey (some 0) (pyStr "person_1"), 0)]
    ∧ dictGet personReg.ai_id_mapping (tempKey (some 0) (pyStr "1")) = none
    ∧ resolveTempIdAnyChunk personReg (pyStr "1") = some 0
    ∧ dictGet personReg.entities (pyStr "Person", pyStr "John Smith") = some 0 := by
  exact ⟨resolveTempIdAnyChunkAux_find, rfl, by decide, by decide, by decide, by decide⟩

/-- The relationship of the C4 scenario: source `person_1` (registered),
target "1" (never registered as a local id). -/
def c4Rel : ExtractedRelationship :=
  ⟨pyStr "r1", pyStr "TRAVELED_TO", pyStr "person_1", pyStr "1", [], none, some 0⟩

/-- C4 counterexample: the claim states that a relationship whose target
local id was never registered by any window is excluded and counted as
orphaned.  On the code, after registering only `person_1` in window 0, the
relationship `person_1 -> "1"` has a target that was never registered (its
mapping key is absent), yet it is NOT orphaned: suffix matching resolves "1"
against the key `chunk_0_person_1`, so the relationship is emitted with both
endpoints resolved to stable id 0 and the orphaned list stays empty. -/
theorem orphan_c4_counterexample :
    registerAll EntityRegistry.init [personEnt] = .ok personReg
    ∧ dictGet personReg.ai_id_mapping (tempKey (some 0) (pyStr "1")) = none
    ∧ (RelationshipResolver.init.resolve_relationships personReg [c4Rel]).1.orphaned_relationships = []
    ∧ ((RelationshipResolver.init.resolve_relationships personReg [c4Rel]).1.resolved_relationships.map
        fun r => (r.source_id, r.target_id)) = [(0, 0)] := by
  exact ⟨rfl, by decide, by decide, by decide⟩

theorem resolveLoop_spec (reg : EntityRegistry) (rels : List ExtractedRelationship) :
    ∀ ctr : Nat,
      (resolveLoop reg ctr rels).2.1
        = rels.filter (fun rel =>
            !((resolveTempIdAnyChunk reg rel.source_temp_id).isSome
               && (resolveTempIdAnyChunk reg rel.target_temp_id).isSome))
      ∧ (resolveLoop reg ctr rels).1.length + (resolveLoop reg ctr rels).2.1.length
          = rels.length := by
  induction rels with
  | nil => exact fun ctr => ⟨rfl, rfl⟩
  | cons rel rest ih =>
      intro ctr
      rcases hs : resolveTempIdAnyChunk reg rel.source_temp_id with _ | sg
      · have h2 := ih ctr
        constructor
        · simp [resolveLoop, hs, List.filter_cons, h2.1]
        · simp only [resolveLoop, hs, List.length_cons]
          have := h2.2
          omega
      · rcases ht : resolveTempIdAnyChunk reg rel.target_temp_id with _ | tg
        · have h2 := ih ctr
          constructor
          · simp [resolveLoop, hs, ht, List.filter_cons, h2.1]
          · simp only [resolveLoop, hs, ht, List.length_cons]
            have := h2.2
            omega
        · have h2 := ih (ctr + 1)
          constructor
          · simp [resolveLoop, hs, ht, List.filter_cons, h2.1]
          · simp only [resolveLoop, hs, ht, List.length_cons]
            have := h2.2
            omega

/-- C4 amended: `resolve_relationships` never fails (it is a total function
in the model); a relationship is excluded from the resolved list and counted
as orphaned (exactly once, preserving the total count) precisely when
`_resolve_temp_id_any_chunk` — which matches mapping keys by the suffix
underscore-plus-local-id, across all windows — finds no match for its source
or target; a never-registered local id that happens to be a suffix of a
registered key resolves instead of orphaning (see the C4 counterexample and
C5). -/
theorem orphan_c4_amended (rr : RelationshipResolver) (reg : EntityRegistry)
    (rels : List ExtractedRelationship) :
    (rr.resolve_relationships reg rels).1.orphaned_relationships
        = rels.filter (fun rel =>
            !((resolveTempIdAnyChunk reg rel.source_temp_id).isSome
               && (resolveTempIdAnyChunk reg rel.target_temp_id).isSome))
    ∧ (rr.resolve_relationships reg rels).1.resolved_relationships.length
        + (rr.resolve_relationships reg rels).1.orphaned_relationships.length
        = rels.length := by
  have h := resolveLoop_spec reg rels rr.uuid_counter
  exact ⟨h.1, h.2⟩

/-- Registry with `person_1` registered while processing window 0 and
`airport_1` registered while processing window 1. -/
def c6Reg : EntityRegistry :=
  match registerAll EntityRegistry.init [personEnt, airportEnt] with
  | .ok r => r
  | .error _ => EntityRegistry.init

/-- The cross-window relationship as buffered from window 0. -/
def c6Rel0 : ExtractedRelationship :=
  ⟨pyStr "rel_1", pyStr "TRAVELED_TO", pyStr "person_1", pyStr "airport_1",
    [], none, some 0⟩

/-- The same relationship as buffered from a different window (7). -/
def c6Rel7 : ExtractedRelationship :=
  ⟨pyStr "rel_1", pyStr "TRAVELED_TO", pyStr "person_1", pyStr "airport_1",
    [], none, some 7⟩

/-- C6: with `person_1` (Person "John Smith") registered in window 0 and
`airport_1` (Airport "IST") in window 1, a relationship from `person_1` to
`airport_1` resolves to the two stable ids (0, 1) whether it was buffered
from window 0 or from window 7; the final conjunct shows in general that the
resolved output is independent of the window a relationship was buffered
from, because endpoint resolution searches the whole identity mapping. -/
theorem cross_window_c6 :
    registerAll EntityRegistry.init [personEnt, airportEnt] = .ok c6Reg
    ∧ dictGet c6Reg.entities (pyStr "Person", pyStr "John Smith") = some 0
    ∧ dictGet c6Reg.entities (pyStr "Airport", pyStr "IST") = some 1
    ∧ ((RelationshipResolver.init.resolve_relationships c6Reg [c6Rel0]).1.resolved_relationships.map
        fun r => (r.source_id, r.target_id)) = [(0, 1)]
    ∧ ((RelationshipResolver.init.resolve_relationships c6Reg [c6Rel7]).1.resolved_relationships.map
        fun r => (r.source_id, r.target_id)) = [(0, 1)]
    ∧ (∀ (rr : RelationshipResolver) (reg : EntityRegistry)
          (rel : ExtractedRelationship) (c : Option Nat),
        (rr.resolve_relationships reg [{ rel with chunk_id := c }]).1.resolved_relationships
          = (rr.resolve_relationships reg [rel]).1.resolved_relationships) := by
  refine ⟨rfl, by decide, by decide, by decide, by decide, ?_⟩
  intro rr reg rel c
  rcases hs : resolveTempIdAnyChunk reg rel.source_temp_id with _ | sg <;>
    rcases ht : resolveTempIdAnyChunk reg rel.target_temp_id with _ | tg <;>
      simp [RelationshipResolver.resolve_relationships, resolveLoop, hs, ht]

/-- C8: after any sequence of successful register operations from a fresh
registry, (1) at most one canonical entity exists per `(type, name)` key:
any two stored entity-detail entries agreeing on type and (normalized) name
carry the same stable id; (2) the stable id associated with a key is assigned
at the first observation of that key and is never changed by later
registrations: any key-to-id association present after a prefix of the
sequence is still present, unchanged, at the end; (3) registering a further
entity whose key is already present returns exactly the existing stable
id. -/
theorem registry_key_c8 (es : List ExtractedEntity) (reg : EntityRegistry)
    (h : registerAll EntityRegistry.init es = .ok reg) :
    (∀ p q, p ∈ reg.entity_details → q ∈ reg.entity_details →
        p.2.entity_type = q.2.entity_type → p.2.name = q.2.name → p.1 = q.1)
    ∧ (∀ (es1 es2 : List ExtractedEntity) (mid : EntityRegistry)
          (k : PyStr × PyStr) (g : Nat), es = es1 ++ es2 →
        registerAll EntityRegistry.init es1 = .ok mid →
        dictGet mid.entities k = some g → dictGet reg.entities k = some g)
    ∧ (∀ (e : ExtractedEntity) (g : Nat),
        dictGet reg.entities (e.entity_type, normalizeName e.name) = some g →
        ¬ e.name = [] → ∃ reg2, reg.register_entity e = .ok (g, reg2)) := by
  have hwf : reg.WF := registerAll_WF es init_WF h
  refine ⟨?_, ?_, ?_⟩
  · intro p q hp hq ht hn
    have h1 := hwf.2 p hp
    have h2 := hwf.2 q hq
    rw [ht, hn, h2] at h1
    injection h1 with h1
    exact h1.symm
  · intro es1 es2 mid k g heq h1 h2
    subst heq
    rw [registerAll_append es1 EntityRegistry.init mid es2 h1] at h
    exact registerAll_lookup_mono es2 k g h h2
  · intro e g hk hn
    exact register_entity_existing hwf hn hk

/-- Registry with the first two Airport entities registered, used to witness
C8 and C9. -/
def c8Reg : EntityRegistry :=
  match registerAll EntityRegistry.init [istA, istB] with
  | .ok r => r
  | .error _ => EntityRegistry.init

/-- Witness for C8: the canonical-entity and key-stability properties hold of
the concrete two-element registration sequence, and registering the third
"Ist" entity against the resulting registry returns the stable id 0 that the
key received at its first observation. -/
theorem registry_key_c8_witness :
    ∃ reg2, c8Reg.register_entity istC = .ok (0, reg2) :=
  (registry_key_c8 [istA, istB] c8Reg rfl).2.2 istC 0 (by decide) (by decide)

/-- The canonical entity stored under stable id 0 in `c8Reg`. -/
def c9Stored : ExtractedEntity :=
  ⟨guidStr 0, pyStr "Airport", pyStr "IST", [(pyStr "name", pyStr "IST")], none, some 0⟩

/-- C9: when register is called with a key that already exists (existing
stable id `g`, stored entity `ex`), the identity-mapping entry for
`(window, local id)` is recorded under the existing stable id, the
`(type, name)` index is unchanged, and the stored properties follow the
"more complete wins" rule: if and only if the new observation has strictly
more property keys than the stored one, the stored entity is replaced by the
new observation with `name` rewritten to the canonical normalized name (and
the stored temp id set to the stable id, `storedEntity`); otherwise the
stored details are unchanged.  In both cases the existing stable id is
returned. -/
theorem register_merge_c9 (reg : EntityRegistry) (e : ExtractedEntity)
    (g : Nat) (ex : ExtractedEntity)
    (hn : ¬ e.name = [])
    (hk : dictGet reg.entities (e.entity_type, normalizeName e.name) = some g)
    (hd : dictGet reg.entity_details g = some ex) :
    ∃ reg2, reg.register_entity e = .ok (g, reg2)
      ∧ reg2.ai_id_mapping = dictInsert reg.ai_id_mapping (tempKey e.chunk_id e.temp_id) g
      ∧ reg2.entities = reg.entities
      ∧ (e.properties.length > ex.properties.length →
          reg2.entity_details = dictInsert reg.entity_details g (storedEntity e g))
      ∧ (¬ e.properties.length > ex.properties.length →
          reg2.entity_details = reg.entity_details) := by
  by_cases hlen : e.properties.length > ex.properties.length
  · exact ⟨_, register_entity_dup_replace reg e g ex hn hk hd hlen, rfl, rfl,
      fun _ => rfl, fun hc => absurd hlen hc⟩
  · exact ⟨_, register_entity_dup_keep reg e g ex hn hk hd hlen, rfl, rfl,
      fun hc => absurd hc hlen, fun _ => rfl⟩

/-- Witness for C9: the merge rule instantiated on the concrete registry
`c8Reg`, registering the "Ist" observation (one property key, not strictly
more than the stored one, so the stored details stay unchanged). -/
theorem register_merge_c9_witness :
    ∃ reg2, c8Reg.register_entity istC = .ok (0, reg2)
      ∧ reg2.ai_id_mapping
          = dictInsert c8Reg.ai_id_mapping (tempKey istC.chunk_id istC.temp_id) 0
      ∧ reg2.entities = c8Reg.entities
      ∧ (istC.properties.length > c9Stored.properties.length →
          reg2.entity_details = dictInsert c8Reg.entity_details 0 (storedEntity istC 0))
      ∧ (¬ istC.properties.length > c9Stored.properties.length →
          reg2.entity_details = c8Reg.entity_details) :=
  register_merge_c9 c8Reg istC 0 c9Stored (by decide) (by decide) (by decide)

/-- A node of a per-window results payload (a dict with `id`, `type`,
`properties` and optional `source_location`). -/
structure NodeData where
  id : PyStr
  type : PyStr
  properties : PyDict
  source_location : Option PyStr
deriving DecidableEq

/-- A relationship of a per-window results payload. -/
structure RelData where
  id : PyStr
  type : PyStr
  source_id : PyStr
  target_id : PyStr
  properties : PyDict
  source_location : Option PyStr
deriving DecidableEq

/-- A per-window results payload (`chunk_result` with `nodes` and
`relationships` arrays). -/
structure ChunkResult where
  nodes : List NodeData
  relationships : List RelData
deriving DecidableEq

/-- `EnhancedExtractionProcessor` state (lines 217-224). -/
structure EnhancedExtractionProcessor where
  entity_registry : EntityRegistry
  relationship_resolver : RelationshipResolver
deriving DecidableEq

/-- `EnhancedExtractionProcessor.__init__`. -/
def EnhancedExtractionProcessor.init : EnhancedExtractionProcessor :=
  ⟨EntityRegistry.init, RelationshipResolver.init⟩

/-- The `ExtractedEntity` built from a node dict in `process_chunk_results`
(lines 238-245); `nm` is `node_data["properties"]["name"]`. -/
def nodeEntity (chunk_id : Nat) (node : NodeData) (nm : PyStr) : ExtractedEntity :=
  ⟨node.id, node.type, nm, node.properties, node.source_location, some chunk_id⟩

/-- The entity loop of `process_chunk_results` (lines 231-248): a node whose
properties lack the `name` key is logged and skipped (`continue`); otherwise
the entity is registered, and an exception from `register_entity`
propagates. -/
def processNodes (chunk_id : Nat) (reg : EntityRegistry) :
    List NodeData → Except PyErr EntityRegistry
  | [] => .ok reg
  | node :: rest =>
      match dictGet node.properties (pyStr "name") with
      | none => processNodes chunk_id reg rest
      | some nm =>
          match reg.register_entity (nodeEntity chunk_id node nm) with
          | .error err => .error err
          | .ok pr => processNodes chunk_id pr.2 rest

/-- `EnhancedExtractionProcessor.process_chunk_results` (lines 226-266):
process the window's nodes through the registry, then convert the window's
relationships to `ExtractedRelationship`s and return them for buffering. -/
def EnhancedExtractionProcessor.process_chunk_results
    (p : EnhancedExtractionProcessor) (chunk_id : Nat) (chunk_result : ChunkResult) :
    Except PyErr (EnhancedExtractionProcessor × List ExtractedRelationship) :=
  match processNodes chunk_id p.entity_registry chunk_result.nodes with
  | .error err => .error err
  | .ok reg2 =>
      .ok ({ p with entity_registry := reg2 },
        chunk_result.relationships.map fun r =>
          ⟨r.id, r.type, r.source_id, r.target_id, r.properties,
            r.source_location, some chunk_id⟩)

/-- The `metadata` block of `finalize_extraction` (lines 285-291). -/
structure Metadata where
  extraction_mode : PyStr
  entity_stats : DedupStats
  relationship_stats : RelStats
  total_unique_entities : Nat
  total_resolved_relationships : Nat
deriving DecidableEq

/-- The dict returned by `finalize_extraction` (lines 282-292). -/
structure FinalResult where
  nodes : List EntityOut
  relationships : List ResolvedRelationship
  metadata : Metadata
deriving DecidableEq

/-- `EnhancedExtractionProcessor.finalize_extraction` (lines 268-292):
resolve all buffered relationships, gather the final entities and the
statistics, and return the result dict; the resolver keeps its updated
state (second component). -/
def EnhancedExtractionProcessor.finalize_extraction
    (p : EnhancedExtractionProcessor)
    (all_relationships : List ExtractedRelationship) :
    FinalResult × EnhancedExtractionProcessor :=
  let r := p.relationship_resolver.resolve_relationships p.entity_registry
    all_relationships
  let resolved_relationships := r.2
  let final_entities := p.entity_registry.get_all_entities
  ({ nodes := final_entities
     relationships := resolved_relationships
     metadata :=
       { extraction_mode := pyStr "enhanced"
         entity_stats := p.entity_registry.get_deduplication_stats
         relationship_stats := r.1.get_relationship_stats
         total_unique_entities := final_entities.length
         total_resolved_relationships := resolved_relationships.length } },
   { p with relationship_resolver := r.1 })

theorem register_entity_ok {reg : EntityRegistry} {entity : ExtractedEntity}
    (hwf : reg.WF) (hn : ¬ entity.name = []) :
    ∃ g reg2, reg.register_entity entity = .ok (g, reg2) := by
  rcases hk : dictGet reg.entities (entity.entity_type, normalizeName entity.name)
    with _ | g
  · exact ⟨_, _, register_entity_new reg entity hn hk⟩
  · obtain ⟨reg2, h⟩ := register_entity_existing hwf hn hk
    exact ⟨g, reg2, h⟩

theorem processNodes_ok (chunk_id : Nat) (nodes : List NodeData) :
    ∀ reg : EntityRegistry, reg.WF →
      (∀ node ∈ nodes, dictGet node.properties (pyStr "name") ≠ some []) →
      ∃ reg2, processNodes chunk_id reg nodes = .ok reg2 := by
  induction nodes with
  | nil => exact fun reg _ _ => ⟨reg, rfl⟩
  | cons node rest ih =>
      intro reg hwf hnames
      rcases hname : dictGet node.properties (pyStr "name") with _ | nm
      · simp only [processNodes, hname]
        exact ih reg hwf fun n hn => hnames n (List.mem_cons_of_mem _ hn)
      · have hnm : ¬ nm = [] := by
          intro hh
          exact hnames node (List.mem_cons_self _ _) (by rw [hname, hh])
        obtain ⟨g, reg2, hreg⟩ :=
          @register_entity_ok reg (nodeEntity chunk_id node nm) hwf hnm
        simp only [processNodes, hname, hreg]
        exact ih reg2 (register_entity_WF hwf hreg)
          fun n hn => hnames n (List.mem_cons_of_mem _ hn)

/-- C2 amended: a candidate entity whose properties lack the `name` key is
rejected and recovered locally — it is skipped and processing of the
remaining entities in the window continues (second conjunct), and as long as
every name that IS present is non-empty the whole window is processed
without any exception (first conjunct).  An entity whose name is present but
EMPTY, however, is not recovered: `register_entity` raises `ValueError` and
the exception escapes `process_chunk_results` (see the counterexample). -/
theorem validation_skip_c2 (p : EnhancedExtractionProcessor) (chunk_id : Nat)
    (res : ChunkResult)
    (hwf : p.entity_registry.WF)
    (hnames : ∀ node ∈ res.nodes, dictGet node.properties (pyStr "name") ≠ some []) :
    (∃ out, p.process_chunk_results chunk_id res = .ok out)
    ∧ (∀ (reg : EntityRegistry) (node : NodeData) (rest : List NodeData),
        dictGet node.properties (pyStr "name") = none →
        processNodes chunk_id reg (node :: rest) = processNodes chunk_id reg rest) := by
  constructor
  · obtain ⟨reg2, h2⟩ := processNodes_ok chunk_id res.nodes p.entity_registry hwf hnames
    have heq : p.process_chunk_results chunk_id res
        = .ok ({ p with entity_registry := reg2 },
            res.relationships.map fun r =>
              ⟨r.id, r.type, r.source_id, r.target_id, r.properties,
                r.source_location, some chunk_id⟩) := by
      unfold EnhancedExtractionProcessor.process_chunk_results
      rw [h2]
    exact ⟨_, heq⟩
  · intro reg node rest hnone
    simp only [processNodes, hnone]

/-- A window payload whose first node has an EMPTY name and whose second
node is valid. -/
def c2Result : ChunkResult :=
  ⟨[⟨pyStr "n1", pyStr "T", [(pyStr "name", pyStr "")], none⟩,
    ⟨pyStr "n2", pyStr "T", [(pyStr "name", pyStr "X")], none⟩], []⟩

/-- C2 counterexample: the claim states an entity with a missing OR EMPTY
display name is skipped with no exception escaping.  On the code, a node
whose `name` is present but empty passes the missing-key check, reaches
`register_entity`, and the `ValueError` raised there escapes
`process_chunk_results`: the window fails and the second (valid) entity is
never processed. -/
theorem validation_skip_c2_counterexample :
    EnhancedExtractionProcessor.init.process_chunk_results 0 c2Result
      = .error (.valueError (pyStr "n1")) := by
  rfl

/-- A window payload whose first node lacks the `name` key (skipped) and
whose second node is valid. -/
def c2GoodResult : ChunkResult :=
  ⟨[⟨pyStr "n1", pyStr "T", [], none⟩,
    ⟨pyStr "n2", pyStr "T", [(pyStr "name", pyStr "X")], none⟩], []⟩

/-- Witness for the amended C2 on a concrete window: the missing-name node is
skipped, the window is processed without exception. -/
theorem validation_skip_c2_witness :
    (∃ out, EnhancedExtractionProcessor.init.process_chunk_results 0 c2GoodResult = .ok out)
    ∧ (∀ (reg : EntityRegistry) (node : NodeData) (rest : List NodeData),
        dictGet node.properties (pyStr "name") = none →
        processNodes 0 reg (node :: rest) = processNodes 0 reg rest) :=
  validation_skip_c2 EnhancedExtractionProcessor.init 0 c2GoodResult init_WF (by decide)

/-- A resolved relationship without its freshly generated id. -/
def stripRelId (r : ResolvedRelationship) :
    PyStr × Nat × Nat × PyDict × Option PyStr :=
  (r.type, r.source_id, r.target_id, r.properties, r.source_location)

theorem resolveLoop_ctr (reg : EntityRegistry) (rels : List ExtractedRelationship) :
    ∀ c1 c2 : Nat,
      (resolveLoop reg c1 rels).1.map stripRelId
          = (resolveLoop reg c2 rels).1.map stripRelId
      ∧ (resolveLoop reg c1 rels).2.1 = (resolveLoop reg c2 rels).2.1
      ∧ (resolveLoop reg c1 rels).1.length = (resolveLoop reg c2 rels).1.length := by
  induction rels with
  | nil => exact fun c1 c2 => ⟨rfl, rfl, rfl⟩
  | cons rel rest ih =>
      intro c1 c2
      rcases hs : resolveTempIdAnyChunk reg rel.source_temp_id with _ | sg
      · simpa [resolveLoop, hs] using ih c1 c2
      · rcases ht : resolveTempIdAnyChunk reg rel.target_temp_id with _ | tg
        · simpa [resolveLoop, hs, ht] using ih c1 c2
        · have h := ih (c1 + 1) (c2 + 1)
          simp [resolveLoop, hs, ht, stripRelId, h.1, h.2.1, h.2.2]

theorem get_relationship_stats_congr (rr1 rr2 : RelationshipResolver)
    (h1 : rr1.resolved_relationships.length = rr2.resolved_relationships.length)
    (h2 : rr1.orphaned_relationships = rr2.orphaned_relationships) :
    rr1.get_relationship_stats = rr2.get_relationship_stats := by
  unfold RelationshipResolver.get_relationship_stats
  rw [h1, h2]

/-- C3 amended: `finalize_extraction` has no one-shot guard and never fails;
calling it a second time on the same instance silently recomputes from the
unchanged registry.  With the same buffered relationship list the second call
returns a result with the same nodes, the same metadata (statistics) and the
same relationships up to the freshly generated relationship ids; the state is
not one-shot (the counterexample shows accumulation continues after
finalization, and that a second call with a different list silently returns
a different, empty, relationship list). -/
theorem finalize_c3_amended (p : EnhancedExtractionProcessor)
    (rels : List ExtractedRelationship) :
    ((p.finalize_extraction rels).2.finalize_extraction rels).1.nodes
        = (p.finalize_extraction rels).1.nodes
    ∧ ((p.finalize_extraction rels).2.finalize_extraction rels).1.metadata
        = (p.finalize_extraction rels).1.metadata
    ∧ ((p.finalize_extraction rels).2.finalize_extraction rels).1.relationships.map stripRelId
        = (p.finalize_extraction rels).1.relationships.map stripRelId := by
  have hc := resolveLoop_ctr p.entity_registry rels
    (resolveLoop p.entity_registry p.relationship_resolver.uuid_counter rels).2.2
    p.relationship_resolver.uuid_counter
  refine ⟨rfl, ?_, ?_⟩
  · simp only [EnhancedExtractionProcessor.finalize_extraction,
      RelationshipResolver.resolve_relationships]
    congr 1
    · exact get_relationship_stats_congr _ _ hc.2.2 hc.2.1
    · exact hc.2.2
  · simp only [EnhancedExtractionProcessor.finalize_extraction,
      RelationshipResolver.resolve_relationships]
    exact hc.1

/-- A processor holding the two-entity registry of the C6 scenario, with a
fresh resolver. -/
def c3Proc : EnhancedExtractionProcessor := ⟨c6Reg, RelationshipResolver.init⟩

/-- C3 counterexample: the claim states that a second finalize on the same
instance fails fast rather than silently returning a different or empty
result, and that the state cannot re-enter accumulation.  On the code there
is no guard: after finalizing with one resolvable relationship (result has 1
relationship), a second finalize with an empty buffered list returns
normally and silently yields an EMPTY relationship list, and
`process_chunk_results` still succeeds after finalization. -/
theorem finalize_c3_counterexample :
    (c3Proc.finalize_extraction [c6Rel0]).1.relationships.length = 1
    ∧ ((c3Proc.finalize_extraction [c6Rel0]).2.finalize_extraction []).1.relationships = []
    ∧ ((c3Proc.finalize_extraction [c6Rel0]).2.process_chunk_results 2 c2GoodResult).isOk
        = true := by
  exact ⟨by decide, by decide, by decide⟩

/-- Decimal rendering of a natural number (f-string interpolation of an
int). -/
def natStr (n : Nat) : PyStr := pyStr (toString n)

/-- Clamp a Python slice index to `[0, len]` (negative indices count from the
end, as in Python). -/
def pySliceIdx (len : Nat) (i : Int) : Nat :=
  if i < 0 then (max ((len : Int) + i) 0).toNat else min i.toNat len

/-- Python slicing `s[a:b]`. -/
def pySlice (s : PyStr) (a b : Int) : PyStr :=
  (s.take (pySliceIdx s.length b)).drop (pySliceIdx s.length a)

/-- One chunk dict emitted by `chunk_text` (`file_processor.py`
lines 175-181). -/
structure Chunk where
  chunk_id : PyStr
  text : PyStr
  start_char : Int
  end_char : Int
  size : Nat
deriving DecidableEq

/-- The `while start < len(text)` loop of `chunk_text` (`file_processor.py`
lines 171-188), with an explicit fuel bound: `none` means the loop is still
running after `fuel` iterations, `some chunks` means the loop exited (either
normally or through the `break` that fires when the updated
`start = end - overlap_size` is `>= end`) and the function returned.  The
loop state is `(start, chunk_id, acc)`; `start` is an `Int` because
`end - overlap_size` can go negative in Python. -/
def chunkLoop (text : PyStr) (chunk_size overlap_size : Nat) :
    Nat → Int → Nat → List Chunk → Option (List Chunk)
  | 0, _, _, _ => none
  | fuel + 1, start, chunk_id, acc =>
      if start < (text.length : Int) then
        let e : Int := min (start + (chunk_size : Int)) (text.length : Int)
        let piece := pySlice text start e
        let acc2 := acc ++
          [⟨pyStr "chunk_" ++ natStr chunk_id, piece, start, e, piece.length⟩]
        if e - (overlap_size : Int) ≥ e then some acc2
        else chunkLoop text chunk_size overlap_size fuel
          (e - (overlap_size : Int)) (chunk_id + 1) acc2
      else some acc

/-- `chunk_text` (`file_processor.py` lines 161-190): empty text gives an
empty chunk list; otherwise `overlap_size = chunk_size * overlap_percentage
/ 100` (CPython computes this with float division and truncation, which
agrees with integer division at these magnitudes) and the sliding-window
loop runs.  `none` means the loop has not returned within `fuel`
iterations. -/
def chunk_text (text : PyStr) (chunk_size overlap_percentage : Nat)
    (fuel : Nat) : Option (List Chunk) :=
  if text = [] then some []
  else chunkLoop text chunk_size (chunk_size * overlap_percentage / 100) fuel 0 0 []

theorem chunkLoop_stall : ∀ (fuel chunk_id : Nat) (acc : List Chunk),
    chunkLoop (pyStr "abcdefghij") 4 1 fuel 9 chunk_id acc = none := by
  intro fuel
  induction fuel with
  | zero => intro cid acc; rfl
  | succ n ih =>
      intro cid acc
      exact ih (cid + 1)
        (acc ++ [⟨pyStr "chunk_" ++ natStr cid, pySlice (pyStr "abcdefghij") 9 10, 9, 10, 1⟩])

/-- C1 (code bug): the claim — and the spec sections 4.1, 8 and the loop
comment "Prevent infinite loop" in the source — require the chunking loop to
terminate with full coverage for `chunk_size = 4`,
`overlap_percentage = 25` over a 10-character text.  The code does not
terminate there: `overlap_size = 1`, and after the window `[6, 10)` the next
start is `10 - 1 = 9 < 10`, so the tail window `[9, 10)` is re-emitted with
`start` reset to 9 forever — the guard `start >= end` can only fire when
`overlap_size = 0`.  Formally, for EVERY fuel bound the loop is still
running: `chunk_text` never returns on this input. -/
theorem chunk_text_c1_diverges :
    ∀ fuel : Nat, chunk_text (pyStr "abcdefghij") 4 25 fuel = none := by
  intro fuel
  match fuel with
  | 0 => rfl
  | 1 => rfl
  | 2 => rfl
  | n + 3 =>
      exact chunkLoop_stall n 3
        [⟨pyStr "chunk_0", pySlice (pyStr "abcdefghij") 0 4, 0, 4, 4⟩,
         ⟨pyStr "chunk_1", pySlice (pyStr "abcdefghij") 3 7, 3, 7, 4⟩,
         ⟨pyStr "chunk_2", pySlice (pyStr "abcdefghij") 6 10, 6, 10, 4⟩]

end DeepInsight
